import Mathlib

/-!
Shallow embedding of the triage-agent core
(src/experiments/triage-agent/src/index.ts): data model, pattern scans,
the three analyzers, scorer/verdict, recommendation generator and the
triage orchestrator, together with theorems settling the spec claims.

Strings are modelled as Lean `String`/`List Char` (the repository's inputs
are ASCII; JS UTF-16 length and Lean codepoint length agree on them).
Regular expressions are modelled by abstract matchers (see `Matcher`); the
concrete `litMatcher` realises `new RegExp(p, flags)` for a pattern `p`
that contains no regex metacharacters.
-/

namespace Triage

/-- Severity of a finding (`Issue.severity` in the source). -/
inductive Severity where
  | error
  | warning
  | info
  deriving DecidableEq

/-- Which analyzer produced a finding (the source's `Issue.type`). -/
inductive IssueType where
  | semantic
  | security
  | style
  deriving DecidableEq

/-- One finding, mirroring the source's `Issue` interface; the optional
`line` is a 1-based line number. -/
structure Issue where
  type : IssueType
  severity : Severity
  file : String
  line : Option Nat
  message : String
  fix : Option String
  deriving DecidableEq

/-- The source's `lintRules` union type. -/
inductive LintRules where
  | strict
  | standard
  | relaxed
  deriving DecidableEq

/-- `TriageConfig['semantic']`. -/
structure SemanticConfig where
  maxComplexity : Int
  forbiddenPatterns : List String
  deriving DecidableEq

/-- `TriageConfig['security']`. -/
structure SecurityConfig where
  scanSecrets : Bool
  checkDependencies : Bool
  forbiddenPackages : List String
  deriving DecidableEq

/-- `TriageConfig['style']`. -/
structure StyleConfig where
  enforceFormat : Bool
  lintRules : LintRules
  deriving DecidableEq

/-- The full `TriageConfig`. -/
structure TriageConfig where
  semantic : SemanticConfig
  security : SecurityConfig
  style : StyleConfig
  deriving DecidableEq

/-- The source's `DEFAULT_CONFIG` constant, field for field.  The
forbidden-pattern entries are the JS string literals (so `"eval\\("` is the
five-character regex source `eval\(`). -/
def DEFAULT_CONFIG : TriageConfig :=
  { semantic :=
      { maxComplexity := 20
        forbiddenPatterns :=
          [(": any"), ("as any"), ("eval\\("), ("Function\\("),
           ("TODO.*HACK"), ("FIXME.*later")] }
    security :=
      { scanSecrets := true
        checkDependencies := true
        forbiddenPackages := [("event-stream"), ("flatmap-stream"), ("mailparser")] }
    style :=
      { enforceFormat := true
        lintRules := LintRules.strict } }

/-!
Caller-supplied configuration.  At the JS runtime every field of the object
(and of its sub-objects) may be absent, so the override shape carries
`Option` at both levels; `triage` merges it with the single top-level
spread `{ ...DEFAULT_CONFIG, ...options.config }`.
-/

/-- Runtime shape of a caller-supplied `semantic` sub-object: each field may
be absent. -/
structure SemanticOverride where
  maxComplexity : Option Int
  forbiddenPatterns : Option (List String)
  deriving DecidableEq

/-- Runtime shape of a caller-supplied `security` sub-object. -/
structure SecurityOverride where
  scanSecrets : Option Bool
  checkDependencies : Option Bool
  forbiddenPackages : Option (List String)
  deriving DecidableEq

/-- Runtime shape of a caller-supplied `style` sub-object. -/
structure StyleOverride where
  enforceFormat : Option Bool
  lintRules : Option LintRules
  deriving DecidableEq

/-- Runtime shape of a caller-supplied config object (`options.config`):
each top-level key may be absent, and a present sub-object may itself be
partial. -/
structure ConfigOverride where
  semantic : Option SemanticOverride
  security : Option SecurityOverride
  style : Option StyleOverride
  deriving DecidableEq

/-- A fully supplied sub-config viewed as a runtime object (every field
present). -/
def SemanticConfig.toOverride (c : SemanticConfig) : SemanticOverride :=
  { maxComplexity := some c.maxComplexity
    forbiddenPatterns := some c.forbiddenPatterns }

/-- A fully supplied sub-config viewed as a runtime object. -/
def SecurityConfig.toOverride (c : SecurityConfig) : SecurityOverride :=
  { scanSecrets := some c.scanSecrets
    checkDependencies := some c.checkDependencies
    forbiddenPackages := some c.forbiddenPackages }

/-- A fully supplied sub-config viewed as a runtime object. -/
def StyleConfig.toOverride (c : StyleConfig) : StyleOverride :=
  { enforceFormat := some c.enforceFormat
    lintRules := some c.lintRules }

/-- Result of `{ ...DEFAULT_CONFIG, ...options.config }`: every top-level
key is present, but a sub-object taken from the caller may be partial. -/
structure MergedConfig where
  semantic : SemanticOverride
  security : SecurityOverride
  style : StyleOverride
  deriving DecidableEq

/-- The config merge performed by `triage` (index.ts line 366):
`{ ...DEFAULT_CONFIG, ...options.config }`.  The spread is shallow at the
top level only: for each top-level key, a caller-supplied sub-object
replaces the default sub-object wholesale; spreading an absent
`options.config` contributes nothing. -/
def mergeConfig (pc : Option ConfigOverride) : MergedConfig :=
  match pc with
  | none =>
    { semantic := DEFAULT_CONFIG.semantic.toOverride
      security := DEFAULT_CONFIG.security.toOverride
      style := DEFAULT_CONFIG.style.toOverride }
  | some p =>
    { semantic := p.semantic.getD DEFAULT_CONFIG.semantic.toOverride
      security := p.security.getD DEFAULT_CONFIG.security.toOverride
      style := p.style.getD DEFAULT_CONFIG.style.toOverride }

/-!
String utilities (JS `String.prototype` operations on `List Char`).
-/

/-- Splits a character list at every character satisfying `p`, keeping empty
segments, as JS `content.split(sep)` does; the result is always nonempty. -/
def splitOnP (p : Char → Bool) : List Char → List (List Char)
  | [] => [[]]
  | c :: cs =>
    match splitOnP p cs with
    | [] => if p c then [[], []] else [[c]]
    | h :: t => if p c then [] :: h :: t else (c :: h) :: t

/-- JS `content.split('\n')`. -/
def splitLines (content : List Char) : List (List Char) :=
  splitOnP (fun c => c == '\n') content

/-- JS `s.startsWith(pre)`. -/
def startsWithStr (s pre : String) : Bool :=
  s.data.take pre.data.length == pre.data

/-- JS `s.endsWith(suf)`. -/
def endsWithStr (s suf : String) : Bool :=
  decide (suf.data.length ≤ s.data.length) &&
    s.data.drop (s.data.length - suf.data.length) == suf.data

/-- Whether `pat` occurs at index `i` of `s`. -/
def substrAt (pat s : List Char) (i : Nat) : Bool :=
  (s.drop i).take pat.length == pat

/-- JS `s.includes(pat)` for a literal pattern. -/
def containsSub (pat s : List Char) : Bool :=
  (List.range (s.length + 1)).any (substrAt pat s)

/-!
Regular-expression model.  A `Matcher` is the search semantics of one
compiled regex: given the subject and a start position, it returns the end
position of the leftmost match beginning at or after the start, if any.
`gTest` is ECMAScript `RegExp.prototype.test` for a `g`-flagged regex: the
search begins at `lastIndex`; on success `lastIndex` becomes the match end,
on failure (including `lastIndex` beyond the subject) it becomes 0.
-/

/-- Abstract compiled regex: subject and start position to end position of
the leftmost match starting at or after the start. -/
abbrev Matcher := List Char → Nat → Option Nat

/-- ECMAScript `regex.test(s)` for a `g`-flagged regex: returns the boolean
result together with the updated `lastIndex`. -/
def gTest (m : Matcher) (s : List Char) (lastIndex : Nat) : Bool × Nat :=
  if s.length < lastIndex then (false, 0)
  else
    match m s lastIndex with
    | some e => (true, e)
    | none => (false, 0)

/-- Case-insensitive equality of character lists (ASCII case folding, the
effect of the `i` flag on literal characters). -/
def lowerEq (a b : List Char) : Bool :=
  a.map Char.toLower == b.map Char.toLower

/-- The matcher compiled by `new RegExp(p, "gi")` when the pattern source
`p` contains no regex metacharacters: leftmost case-insensitive occurrence
of the literal `p` at or after the start position. -/
def litMatcher (p : String) : Matcher := fun s start =>
  (((List.range (s.length + 1)).filter fun i =>
      decide (start ≤ i) && lowerEq ((s.drop i).take p.data.length) p.data).head?).map
    (fun i => i + p.data.length)

/-!
Semantic analyzer (`analyzeSemantics`, index.ts lines 91-162).
The file system is modelled as a partial map from path to content; `none`
is a read failure (the `catch` path of `readFileSync`).
-/

/-- File system seen through `readFileSync`: `none` models a read error. -/
abbrev FS := String → Option String

/-- The Issue pushed for a forbidden-pattern match (index.ts lines 107-114). -/
def forbiddenIssue (file pat : String) (line : Nat) : Issue :=
  { type := IssueType.semantic
    severity := Severity.warning
    file := file
    line := some line
    message := ("Forbidden pattern detected: ") ++ pat
    fix := some ("Consider using a more specific type or approach") }

/-- The forbidden-pattern loop body over one file's lines (index.ts lines
104-116): one `g`-flagged regex per pattern, tested against every line with
`regex.test(line)`.  The regex state `li` (its `lastIndex`) is threaded
from one line to the next — the source never resets it. -/
def forbiddenScanLines (m : Matcher) (file pat : String) :
    Nat → Nat → List (List Char) → List Issue
  | _, _, [] => []
  | li, idx, l :: ls =>
    let t := gTest m l li
    (if t.1 then [forbiddenIssue file pat (idx + 1)] else []) ++
      forbiddenScanLines m file pat t.2 (idx + 1) ls

/-- All configured forbidden patterns over one file's lines; each pattern's
regex is freshly compiled (`new RegExp(pattern, "gi")`, `lastIndex` 0). -/
def forbiddenScanAll (compile : String → Matcher) (file : String)
    (lines : List (List Char)) : List String → List Issue
  | [] => []
  | pat :: ps =>
    forbiddenScanLines (compile pat) file pat 0 0 lines ++
      forbiddenScanAll compile file lines ps

/-- The Issue pushed for excessive nesting (index.ts lines 128-135). -/
def nestingIssue (file : String) (line : Nat) (level : Int) : Issue :=
  { type := IssueType.semantic
    severity := Severity.warning
    file := file
    line := some line
    message := ("High nesting complexity: ") ++ toString level ++ (" levels")
    fix := some ("Consider extracting nested logic into separate functions") }

/-- The nesting-depth heuristic (index.ts lines 120-137): the running level
goes up by the `\x7b` count and down by the `\x7d` count of each line; a line
leaving the level above `maxComplexity / 4` yields an Issue.  The JS
comparison `nestingLevel > maxComplexity / 4` (real division) is rendered
as `maxComplexity < 4 * level`, equivalent over the integers.  The
source's `maxNesting` variable is dead (never read) and is omitted. -/
def nestingScan (file : String) (maxComplexity : Int) :
    Int → Nat → List (List Char) → List Issue
  | _, _, [] => []
  | level, idx, l :: ls =>
    let level2 : Int :=
      level + (l.countP (fun c => c == '\x7b') : Int) -
        (l.countP (fun c => c == '\x7d') : Int)
    (if maxComplexity < 4 * level2 then [nestingIssue file (idx + 1) level2] else []) ++
      nestingScan file maxComplexity level2 (idx + 1) ls

/-- The single-quote character. -/
def squote : Char := Char.ofNat 39

/-- The double-quote character. -/
def dquote : Char := Char.ofNat 34

/-- A character matched by the regex class of the two quote kinds. -/
def isQuoteChar (c : Char) : Bool := c == squote || c == dquote

/-- One attempt of the import-extraction regex at the head of the input:
the pattern is the keyword, a space, an opening quote, one or more
non-quote characters, and a closing quote.  On success it returns the
module-reference string (the text the source recovers with its two
`replace` calls) and the input remaining after the match. -/
def matchFromAt : List Char → Option (String × List Char)
  | 'f' :: 'r' :: 'o' :: 'm' :: ' ' :: q :: rest =>
    if isQuoteChar q then
      let body := rest.takeWhile (fun c => !isQuoteChar c)
      match rest.dropWhile (fun c => !isQuoteChar c) with
      | _ :: rest3 => if body.isEmpty then none else some (String.mk body, rest3)
      | [] => none
    else none
  | _ => none

/-- Fuel-indexed leftmost non-overlapping scan for the import-extraction
regex; on a failed attempt the scan advances one character, on a success it
continues after the match, exactly as a `g`-flagged `String.match` does.
Every step strictly shrinks the input, so fuel equal to the input length is
always enough. -/
def extractGo : Nat → List Char → List String
  | 0, _ => []
  | _, [] => []
  | fuel + 1, c :: cs =>
    match matchFromAt (c :: cs) with
    | some (pkg, rest) => pkg :: extractGo fuel rest
    | none => extractGo fuel cs

/-- `content.match(importRegex) || []` followed by the per-match stripping
(index.ts lines 140-142): the list of import targets in source order. -/
def extractImports (content : List Char) : List String :=
  extractGo content.length content

/-- The Issue pushed for a suspicious import target (index.ts lines 147-153). -/
def hallucinatedIssue (file pkg : String) : Issue :=
  { type := IssueType.semantic
    severity := Severity.warning
    file := file
    line := none
    message := ("Potentially hallucinated package: ") ++ pkg
    fix := some ("Verify this package exists in npm registry") }

/-- An ASCII capital letter (the regex class of capitals). -/
def isUpperAZ (c : Char) : Bool := decide ('A' ≤ c) && decide (c ≤ 'Z')

/-- An ECMAScript line-terminator character (the characters the regex dot
does not match). -/
def isLineTerm (c : Char) : Bool :=
  c == '\n' || c == '\r' || c == '\u2028' || c == '\u2029'

/-- The test of the regex [capital, dot-star, capital] on `pkg`: some
line-terminator-free stretch of `pkg` contains at least two capitals. -/
def twoCapsTest (pkg : String) : Bool :=
  (splitOnP isLineTerm pkg.data).any fun seg => decide (2 ≤ seg.countP isUpperAZ)

/-- The hallucinated-import loop (index.ts lines 141-155): relative targets
(leading dot) are skipped; a remaining target with two capitals and no
slash yields an Issue. -/
def hallucinatedScan (file : String) : List String → List Issue
  | [] => []
  | pkg :: rest =>
    (if startsWithStr pkg (".") then []
     else if twoCapsTest pkg && !(pkg.data.contains '/') then
       [hallucinatedIssue file pkg]
     else []) ++ hallucinatedScan file rest

/-- The per-file body of `analyzeSemantics` (the `try` block): forbidden
patterns, then the nesting heuristic, then the import heuristic. -/
def analyzeSemanticsFile (compile : String → Matcher) (file : String)
    (content : String) (config : SemanticConfig) : List Issue :=
  let lines := splitLines content.data
  forbiddenScanAll compile file lines config.forbiddenPatterns ++
    nestingScan file config.maxComplexity 0 0 lines ++
    hallucinatedScan file (extractImports content.data)

/-- `analyzeSemantics` (index.ts lines 91-162): every file in order; a file
whose read fails contributes nothing (the `catch` path). -/
def analyzeSemantics (compile : String → Matcher) (fs : FS)
    (files : List String) (config : SemanticConfig) : List Issue :=
  match files with
  | [] => []
  | file :: rest =>
    (match fs file with
     | none => []
     | some content => analyzeSemanticsFile compile file content config) ++
      analyzeSemantics compile fs rest config

/-!
Security scanner (`scanSecurity`, index.ts lines 168-228).  The secret
signatures (`SECRET_PATTERNS`) are module-level `g`-flagged regexes,
modelled as an abstract matcher list; JSON parsing of the manifest is
modelled by an abstract `parse` function returning the merged
dependency-name set (`{ ...pkg.dependencies, ...pkg.devDependencies }`
restricted to truthy values), with `none` for unparsable content.
-/

/-- The Issue pushed for a secret match (index.ts lines 183-190). -/
def secretIssue (file : String) (line : Nat) : Issue :=
  { type := IssueType.security
    severity := Severity.error
    file := file
    line := some line
    message := ("Potential secret or credential detected")
    fix := some ("Remove secret and use environment variables") }

/-- One secret signature over one file's lines (index.ts lines 181-193):
`pattern.test(line)` followed by the unconditional `pattern.lastIndex = 0`,
so every line after the first is tested from position 0 regardless of the
test's own `lastIndex` update (`t.2` is discarded). -/
def secretScanLines (m : Matcher) (file : String) :
    Nat → Nat → List (List Char) → List Issue
  | _, _, [] => []
  | li, idx, l :: ls =>
    let t := gTest m l li
    (if t.1 then [secretIssue file (idx + 1)] else []) ++
      secretScanLines m file 0 (idx + 1) ls

/-- All secret signatures over one file (index.ts lines 180-194).  Each
pattern enters a file with `lastIndex` 0: the patterns are module-level,
but the reset after every line (and the nonempty line list of any file)
leaves each at 0 when a file ends. -/
def secretScanPatterns (file : String) (lines : List (List Char)) :
    List Matcher → List Issue
  | [] => []
  | m :: ms =>
    secretScanLines m file 0 0 lines ++ secretScanPatterns file lines ms

/-- The secrets loop over the file list (index.ts lines 175-198); a file
whose read fails contributes nothing. -/
def secretScanFiles (patterns : List Matcher) (fs : FS) :
    List String → List Issue
  | [] => []
  | file :: rest =>
    (match fs file with
     | none => []
     | some content => secretScanPatterns file (splitLines content.data) patterns) ++
      secretScanFiles patterns fs rest

/-- The Issue pushed for a forbidden dependency (index.ts lines 213-219);
note the absent line number. -/
def depIssue (pkg : String) : Issue :=
  { type := IssueType.security
    severity := Severity.error
    file := ("package.json")
    line := none
    message := ("Forbidden package detected: ") ++ pkg
    fix := some ("Remove this package - it has known security issues") }

/-- The loop over `config.forbiddenPackages` (index.ts lines 211-221)
against the merged dependency-name set. -/
def depIssuesFor (deps : List String) : List String → List Issue
  | [] => []
  | f :: rest =>
    (if deps.contains f then [depIssue f] else []) ++ depIssuesFor deps rest

/-- The dependency check (index.ts lines 202-225): reads the fixed path
`package.json`; a read failure or unparsable content is silently skipped
(the `catch` path). -/
def depCheck (parse : String → Option (List String)) (fs : FS)
    (forbiddenPackages : List String) : List Issue :=
  match fs ("package.json") with
  | none => []
  | some content =>
    match parse content with
    | none => []
    | some deps => depIssuesFor deps forbiddenPackages

/-- `scanSecurity` (index.ts lines 168-228): the secrets loop when
`scanSecrets`, then the dependency check when `checkDependencies`. -/
def scanSecurity (patterns : List Matcher) (parse : String → Option (List String))
    (fs : FS) (files : List String) (config : SecurityConfig) : List Issue :=
  (if config.scanSecrets then secretScanFiles patterns fs files else []) ++
    (if config.checkDependencies then depCheck parse fs config.forbiddenPackages else [])

/-!
Style checker (`checkStyle`, index.ts lines 234-290).
-/

/-- The line-length Issue (index.ts lines 252-258). -/
def lineLengthIssue (file : String) (line len : Nat) : Issue :=
  { type := IssueType.style
    severity := Severity.warning
    file := file
    line := some line
    message := ("Line exceeds 120 characters (") ++ toString len ++ (")")
    fix := none }

/-- The console-call Issue (index.ts lines 263-270). -/
def consoleIssue (file : String) (line : Nat) : Issue :=
  { type := IssueType.style
    severity := Severity.warning
    file := file
    line := some line
    message := ("console.log should not be in production code")
    fix := some ("Use a proper logging library") }

/-- The legacy-declaration Issue (index.ts lines 275-281). -/
def varIssue (file : String) (line : Nat) : Issue :=
  { type := IssueType.style
    severity := Severity.warning
    file := file
    line := some line
    message := ("Prefer const or let over var")
    fix := none }

/-- An ECMAScript word character (the class of letters, digits and the
underscore). -/
def isWordChar (c : Char) : Bool :=
  isUpperAZ c || (decide ('a' ≤ c) && decide (c ≤ 'z')) ||
    (decide ('0' ≤ c) && decide (c ≤ '9')) || c == '_'

/-- An ECMAScript whitespace or line-terminator character (the class the
escape for whitespace matches). -/
def isJsSpace (c : Char) : Bool :=
  c == ' ' || c == '\t' || c == '\n' || c == '\r' || c == '\x0b' ||
    c == '\x0c' || c == '\u00a0' || c == '\u1680' ||
    (decide ('\u2000' ≤ c) && decide (c ≤ '\u200a')) || c == '\u2028' ||
    c == '\u2029' || c == '\u202f' || c == '\u205f' || c == '\u3000' ||
    c == '\ufeff'

/-- The test of the legacy-declaration regex (word boundary, the keyword
`var`, then at least one whitespace character) on one line. -/
def varTest (l : List Char) : Bool :=
  (List.range l.length).any fun i =>
    substrAt ['v', 'a', 'r'] l i &&
      (decide (i = 0) ||
        !(match l.get? (i - 1) with
          | some c => isWordChar c
          | none => false)) &&
      (match l.get? (i + 3) with
       | some c => isJsSpace c
       | none => false)

/-- The test of the console regex on one line: an occurrence of
`console.log` or `console.debug` (the dot is a metacharacter but only
matches more than the literal dot, which the claims never rely on; the
source escapes it, so the literal reading is exact). -/
def consoleTest (l : List Char) : Bool :=
  containsSub ("console.log").data l || containsSub ("console.debug").data l

/-- The per-line body of the style checker (index.ts lines 249-283). -/
def styleLineIssues (file : String) (idx : Nat) (l : List Char) : List Issue :=
  (if 120 < l.length then [lineLengthIssue file (idx + 1) l.length] else []) ++
    (if !containsSub (".test.").data file.data && consoleTest l then
      [consoleIssue file (idx + 1)]
    else []) ++
    (if varTest l then [varIssue file (idx + 1)] else [])

/-- The style checker's line loop. -/
def styleLinesScan (file : String) : Nat → List (List Char) → List Issue
  | _, [] => []
  | idx, l :: ls => styleLineIssues file idx l ++ styleLinesScan file (idx + 1) ls

/-- `checkStyle` (index.ts lines 234-290): only files with a recognized
source extension are read; a read failure contributes nothing.  The style
sub-config is accepted but (as in the source) never consulted. -/
def checkStyle (fs : FS) (files : List String) (config : StyleConfig) : List Issue :=
  match files with
  | [] => []
  | file :: rest =>
    (if !(endsWithStr file (".ts") || endsWithStr file (".tsx") || endsWithStr file (".js")) then
      []
    else
      match fs file with
      | none => []
      | some content => styleLinesScan file 0 (splitLines content.data)) ++
      checkStyle fs rest config

/-!
Aggregator, scorer, recommendations, orchestrator
(index.ts lines 305-400 and the CLI boundary 403-443).
-/

/-- The per-severity deduction of `calculateScore` (index.ts lines 312-322). -/
def severityPenalty : Severity → Int
  | Severity.error => 20
  | Severity.warning => 5
  | Severity.info => 1

/-- `calculateScore` (index.ts lines 308-326): start at 100, subtract the
penalty of every issue, then take `Math.max(0, score)`. -/
def calculateScore (issues : List Issue) : Int :=
  max 0 (issues.foldl (fun s i => s - severityPenalty i.severity) 100)

/-- `generateRecommendations` (index.ts lines 331-355). -/
def generateRecommendations (issues : List Issue) : List String :=
  (if issues.any (fun i =>
        decide (i.type = IssueType.security) && decide (i.severity = Severity.error)) then
    [("🚨 CRITICAL: Address security issues before merging")]
  else []) ++
    (if 3 < (issues.filter fun i => decide (i.type = IssueType.semantic)).length then
      [("Consider refactoring to reduce code complexity")]
    else []) ++
    (if 5 < (issues.filter fun i => decide (i.type = IssueType.style)).length then
      [("Run formatter (prettier/eslint --fix) before committing")]
    else []) ++
    (if issues.length = 0 then [("✅ Code looks good! Ready for human review.")] else [])

/-- The overall verdict. -/
inductive Verdict where
  | PASS
  | FAIL
  | WARN
  deriving DecidableEq

/-- The verdict computation of `triage` (index.ts lines 380-388). -/
def verdictOf (issues : List Issue) : Verdict :=
  if issues.any (fun i => decide (i.severity = Severity.error)) then Verdict.FAIL
  else if issues.any (fun i => decide (i.severity = Severity.warning)) then Verdict.WARN
  else Verdict.PASS

/-- The source's `TriageResult` interface. -/
structure TriageResult where
  verdict : Verdict
  score : Int
  issues : List Issue
  recommendations : List String
  analyzedFiles : Nat
  timestamp : String
  deriving DecidableEq

/-- `triage` (index.ts lines 360-400).  `changedFiles` is the collaborator
result `getChangedFiles(options.base)` (consulted only when `options.files`
is absent; a nonempty JS array is truthy, and an empty array is also
truthy, so `some []` stays `[]`); `now` is the clock reading used for the
timestamp.  The `shadow` option is received, as in the source, and never
read. -/
def triage (compile : String → Matcher) (patterns : List Matcher)
    (parse : String → Option (List String)) (fs : FS)
    (changedFiles : List String) (now : String)
    (filesOpt : Option (List String)) (config : TriageConfig)
    (shadow : Bool) : TriageResult :=
  let files := filesOpt.getD changedFiles
  let semanticIssues := analyzeSemantics compile fs files config.semantic
  let securityIssues := scanSecurity patterns parse fs files config.security
  let styleIssues := checkStyle fs files config.style
  let allIssues := semanticIssues ++ securityIssues ++ styleIssues
  { verdict := verdictOf allIssues
    score := calculateScore allIssues
    issues := allIssues
    recommendations := generateRecommendations allIssues
    analyzedFiles := files.length
    timestamp := now }

/-- The CLI boundary's exit-code translation (index.ts lines 434-437):
process exit 1 exactly on a FAIL verdict outside shadow mode. -/
def exitCode (result : TriageResult) (shadow : Bool) : Nat :=
  if result.verdict = Verdict.FAIL ∧ shadow = false then 1 else 0

/-!
Specification-side definitions and concrete fixtures used by the theorems.
-/

/-- Number of issues of a given severity, as an integer. -/
def countSeverity (s : Severity) (issues : List Issue) : Int :=
  ((issues.filter fun i => decide (i.severity = s)).length : Int)

/-- Reference secret scan following the spec's words: each signature is
tested against every line independently (from position 0, as if freshly
reset), each match yielding one error Issue carrying the 1-based line
number. -/
def specSecretScan (m : Matcher) (file : String) :
    Nat → List (List Char) → List Issue
  | _, [] => []
  | idx, l :: ls =>
    (if (gTest m l 0).1 then [secretIssue file (idx + 1)] else []) ++
      specSecretScan m file (idx + 1) ls

/-- Fixture: a one-file file system whose file has the pattern `: any` on
both of its lines (at column 1 of the first line). -/
def fsC2 : FS := fun f => if f = ("a.ts") then some ("x: any\ny: any") else none

/-- Fixture: a one-file file system with a single forbidden-pattern match. -/
def fsW : FS := fun f => if f = ("w.ts") then some ("x: any") else none

/-- Fixture: the default config with one literal forbidden pattern. -/
def cfgW : TriageConfig :=
  { DEFAULT_CONFIG with
      semantic := { maxComplexity := 20, forbiddenPatterns := [(": any")] } }

/-!
Shared helper lemmas.
-/

/-- The boolean severity scan of `verdictOf` equals severity presence. -/
theorem any_severity_iff (issues : List Issue) (s : Severity) :
    (issues.any fun i => decide (i.severity = s)) = true ↔
      ∃ i ∈ issues, i.severity = s := by
  simp [List.any_eq_true]

/-!
C1 — the configuration merge.
-/

/-- C1 counterexample: for the caller-supplied partial config that sets only
`semantic.maxComplexity`, the merged config does not take
`semantic.forbiddenPatterns` from the default config (the supplied
`semantic` sub-object replaces the default one wholesale, leaving the field
unset), refuting the claim as stated. -/
theorem merge_partial_subconfig_loses_default :
    ¬((mergeConfig (some
        { semantic := some { maxComplexity := some 5, forbiddenPatterns := none }
          security := none
          style := none })).semantic.forbiddenPatterns
      = some DEFAULT_CONFIG.semantic.forbiddenPatterns) := by decide

/-- C1 amended: `triage` merges the caller-supplied partial config over the
default config with a single shallow top-level spread: each top-level
sub-config the caller supplies replaces the default sub-config wholesale
(fields left unset inside it stay unset rather than inheriting defaults),
and each top-level sub-config the caller leaves unset is taken entirely
from the default config; an absent config object yields the defaults. -/
theorem merge_top_level_shallow (p : ConfigOverride) :
    ((p.semantic = none →
        (mergeConfig (some p)).semantic = DEFAULT_CONFIG.semantic.toOverride)
      ∧ ∀ s, p.semantic = some s → (mergeConfig (some p)).semantic = s)
  ∧ ((p.security = none →
        (mergeConfig (some p)).security = DEFAULT_CONFIG.security.toOverride)
      ∧ ∀ s, p.security = some s → (mergeConfig (some p)).security = s)
  ∧ ((p.style = none →
        (mergeConfig (some p)).style = DEFAULT_CONFIG.style.toOverride)
      ∧ ∀ s, p.style = some s → (mergeConfig (some p)).style = s)
  ∧ mergeConfig none =
      { semantic := DEFAULT_CONFIG.semantic.toOverride
        security := DEFAULT_CONFIG.security.toOverride
        style := DEFAULT_CONFIG.style.toOverride } := by
  refine ⟨⟨fun h => ?_, fun s h => ?_⟩, ⟨fun h => ?_, fun s h => ?_⟩,
    ⟨fun h => ?_, fun s h => ?_⟩, rfl⟩ <;> simp [mergeConfig, h]

/-- C1 witness: the amended merge behaviour at a concrete input. -/
theorem merge_top_level_shallow_witness :
    (mergeConfig (some { semantic := none, security := none, style := none })).semantic
      = DEFAULT_CONFIG.semantic.toOverride :=
  ((merge_top_level_shallow { semantic := none, security := none, style := none }).1).1 rfl

/-!
C2 — the forbidden-pattern scan's regex state across lines.
-/

/-- C2: on the file whose two lines both contain the configured pattern
`: any`, the semantic analyzer reports only line 1 — a fresh test of the
same pattern accepts line 2 (second conjunct), but the `g`-flagged regex's
`lastIndex`, advanced by the line-1 match and never reset, makes the line-2
test fail, so the second matching line is silently skipped. -/
theorem forbidden_scan_state_skips_matching_line :
    analyzeSemantics litMatcher fsC2 [("a.ts")]
        { maxComplexity := 20, forbiddenPatterns := [(": any")] }
      = [forbiddenIssue ("a.ts") (": any") 1]
  ∧ (gTest (litMatcher (": any")) ("y: any").data 0).1 = true :=
  ⟨by decide, by decide⟩

/-!
C3 — verdict as a function of severity presence.
-/

/-- C3: the verdict is FAIL exactly when some issue has severity error;
otherwise it is WARN exactly when some issue has severity warning;
otherwise PASS — and it is a function of severity presence alone (two issue
sequences agreeing on error- and warning-presence get the same verdict,
whatever their scores). -/
theorem verdict_severity_characterization (issues : List Issue) :
    (verdictOf issues = Verdict.FAIL ↔ ∃ i ∈ issues, i.severity = Severity.error)
  ∧ ((∀ i ∈ issues, i.severity ≠ Severity.error) →
      (verdictOf issues = Verdict.WARN ↔ ∃ i ∈ issues, i.severity = Severity.warning))
  ∧ (verdictOf issues = Verdict.PASS ↔
      ∀ i ∈ issues, i.severity ≠ Severity.error ∧ i.severity ≠ Severity.warning)
  ∧ ∀ issues₂ : List Issue,
      ((∃ i ∈ issues, i.severity = Severity.error) ↔
        (∃ i ∈ issues₂, i.severity = Severity.error)) →
      ((∃ i ∈ issues, i.severity = Severity.warning) ↔
        (∃ i ∈ issues₂, i.severity = Severity.warning)) →
      verdictOf issues = verdictOf issues₂ := by
  have he := any_severity_iff issues Severity.error
  have hw := any_severity_iff issues Severity.warning
  refine ⟨?_, ?_, ?_, ?_⟩
  · unfold verdictOf
    split_ifs with h1 h2
    · exact iff_of_true rfl (he.1 h1)
    · exact iff_of_false (by simp) (fun hex => h1 (he.2 hex))
    · exact iff_of_false (by simp) (fun hex => h1 (he.2 hex))
  · intro hne
    have h1 : (issues.any fun i => decide (i.severity = Severity.error)) = false := by
      rw [← Bool.not_eq_true]
      intro hc
      rcases he.1 hc with ⟨i, hi, hs⟩
      exact hne i hi hs
    unfold verdictOf
    rw [h1]
    simp only [Bool.false_eq_true, if_false]
    split_ifs with h2
    · exact iff_of_true rfl (hw.1 h2)
    · exact iff_of_false (by simp) (fun hex => h2 (hw.2 hex))
  · unfold verdictOf
    split_ifs with h1 h2
    · refine iff_of_false (by simp) (fun hall => ?_)
      rcases he.1 h1 with ⟨i, hi, hs⟩
      exact (hall i hi).1 hs
    · refine iff_of_false (by simp) (fun hall => ?_)
      rcases hw.1 h2 with ⟨i, hi, hs⟩
      exact (hall i hi).2 hs
    · exact iff_of_true rfl (fun i hi =>
        ⟨fun hs => h1 (he.2 ⟨i, hi, hs⟩), fun hs => h2 (hw.2 ⟨i, hi, hs⟩)⟩)
  · intro issues₂ h₁ h₂
    have he₂ := any_severity_iff issues₂ Severity.error
    have hw₂ := any_severity_iff issues₂ Severity.warning
    unfold verdictOf
    have hbe : (issues.any fun i => decide (i.severity = Severity.error))
        = (issues₂.any fun i => decide (i.severity = Severity.error)) := by
      by_cases hb : (issues.any fun i => decide (i.severity = Severity.error)) = true
      · rw [hb, he₂.2 (h₁.1 (he.1 hb))]
      · have hb' : ¬(issues₂.any fun i => decide (i.severity = Severity.error)) = true :=
          fun hc => hb (he.2 (h₁.2 (he₂.1 hc)))
        rw [Bool.not_eq_true] at hb hb'
        rw [hb, hb']
    have hbw : (issues.any fun i => decide (i.severity = Severity.warning))
        = (issues₂.any fun i => decide (i.severity = Severity.warning)) := by
      by_cases hb : (issues.any fun i => decide (i.severity = Severity.warning)) = true
      · rw [hb, hw₂.2 (h₂.1 (hw.1 hb))]
      · have hb' : ¬(issues₂.any fun i => decide (i.severity = Severity.warning)) = true :=
          fun hc => hb (hw.2 (h₂.2 (hw₂.1 hc)))
        rw [Bool.not_eq_true] at hb hb'
        rw [hb, hb']
    rw [hbe, hbw]

/-- C3 witness: a single error-severity issue yields FAIL. -/
theorem verdict_severity_characterization_witness :
    verdictOf [secretIssue ("w.ts") 1] = Verdict.FAIL :=
  (verdict_severity_characterization [secretIssue ("w.ts") 1]).1.mpr
    ⟨secretIssue ("w.ts") 1, by decide, rfl⟩

/-!
C4 — the score formula.
-/

/-- The deduction loop of `calculateScore` in closed form. -/
theorem score_foldl (issues : List Issue) : ∀ a : Int,
    issues.foldl (fun s i => s - severityPenalty i.severity) a
      = a - 20 * countSeverity Severity.error issues
          - 5 * countSeverity Severity.warning issues
          - countSeverity Severity.info issues := by
  induction issues with
  | nil => intro a; simp [countSeverity]
  | cons i rest ih =>
    intro a
    rw [List.foldl_cons, ih]
    rcases hs : i.severity <;>
      simp [countSeverity, severityPenalty, hs, List.filter_cons] <;> ring

/-- C4: the computed score is the claimed clamped linear formula of the
per-severity issue counts, and in particular always lies in [0, 100]. -/
theorem score_clamp_formula (issues : List Issue) :
    calculateScore issues
        = max 0 (min 100 (100 - 20 * countSeverity Severity.error issues
            - 5 * countSeverity Severity.warning issues
            - countSeverity Severity.info issues))
  ∧ 0 ≤ calculateScore issues ∧ calculateScore issues ≤ 100 := by
  have h := score_foldl issues 100
  have hce : 0 ≤ countSeverity Severity.error issues := Int.natCast_nonneg _
  have hcw : 0 ≤ countSeverity Severity.warning issues := Int.natCast_nonneg _
  have hci : 0 ≤ countSeverity Severity.info issues := Int.natCast_nonneg _
  unfold calculateScore
  rw [h]
  refine ⟨?_, le_max_left _ _, ?_⟩
  · rw [min_eq_right (by omega)]
  · rw [max_le_iff]
    omega

/-!
C6 — shadow mode.
-/

/-- C6: `triage` never reads `shadow` — with the file list, configuration
and file contents fixed, any two shadow settings give the same result
(verdict, score, issues, recommendations and all); the flag only enters the
CLI boundary's exit-code translation, which returns 1 exactly on a FAIL
verdict outside shadow mode. -/
theorem triage_shadow_invariant (compile : String → Matcher)
    (patterns : List Matcher) (parse : String → Option (List String)) (fs : FS)
    (changedFiles : List String) (now : String) (filesOpt : Option (List String))
    (config : TriageConfig) (s₁ s₂ : Bool) :
    triage compile patterns parse fs changedFiles now filesOpt config s₁
        = triage compile patterns parse fs changedFiles now filesOpt config s₂
  ∧ ∀ (r : TriageResult) (shadow : Bool),
      exitCode r shadow = 1 ↔ r.verdict = Verdict.FAIL ∧ shadow = false := by
  refine ⟨rfl, fun r shadow => ?_⟩
  unfold exitCode
  split_ifs with h <;> simp [h]

/-!
C10 — the security scanner without `scanSecrets`.
-/

/-- C10: when `scanSecrets` is false the security scanner never consults
the file list — the remaining dependency check reads the fixed manifest
path — so any two file lists yield the same issue sequence. -/
theorem scan_security_ignores_files_without_secrets (patterns : List Matcher)
    (parse : String → Option (List String)) (fs : FS)
    (files₁ files₂ : List String) (config : SecurityConfig)
    (h : config.scanSecrets = false) :
    scanSecurity patterns parse fs files₁ config
      = scanSecurity patterns parse fs files₂ config := by
  unfold scanSecurity
  rw [h]
  simp

/-- C10 witness: concrete file lists under a no-secret-scan config. -/
theorem scan_security_ignores_files_without_secrets_witness :
    scanSecurity [] (fun _ => none) (fun _ => none) [("a.ts")]
        { scanSecrets := false, checkDependencies := true, forbiddenPackages := [] }
      = scanSecurity [] (fun _ => none) (fun _ => none) []
        { scanSecrets := false, checkDependencies := true, forbiddenPackages := [] } :=
  scan_security_ignores_files_without_secrets [] (fun _ => none) (fun _ => none)
    [("a.ts")] [] _ rfl

/-!
C5 — the secret scan's per-line reset.
-/

/-- Thanks to the unconditional `lastIndex` reset after every line, the
stateful secret scan coincides with the per-line-independent reference
scan. -/
theorem secretScanLines_eq_spec (m : Matcher) (file : String) :
    ∀ idx ls, secretScanLines m file 0 idx ls = specSecretScan m file idx ls := by
  intro idx ls
  induction ls generalizing idx with
  | nil => rfl
  | cons l ls ih => rw [secretScanLines, specSecretScan, ih]

/-- In the reference scan started at base index `idx`, no issue carries a
line number at or below `idx`. -/
theorem specSecretScan_filter_small (m : Matcher) (file : String) :
    ∀ (ls : List (List Char)) (idx n : Nat), n < idx →
      ((specSecretScan m file idx ls).filter
          fun i => decide (i.line = some (n + 1))).length = 0 := by
  intro ls
  induction ls with
  | nil => intro idx n _; rfl
  | cons l ls ih =>
    intro idx n h
    rw [specSecretScan, List.filter_append, List.length_append,
      ih (idx + 1) n (by omega)]
    have hne : (decide ((secretIssue file (idx + 1)).line = some (n + 1))) = false := by
      simp [secretIssue]
      omega
    split <;> simp [hne]

/-- Per signature, the reference scan reports a given line exactly once
when a fresh test accepts it and not at all otherwise. -/
theorem specSecretScan_filter_count (m : Matcher) (file : String) :
    ∀ (ls : List (List Char)) (idx k : Nat) (l : List Char), ls.get? k = some l →
      ((specSecretScan m file idx ls).filter
          fun i => decide (i.line = some (idx + k + 1))).length
        = (if (gTest m l 0).1 then 1 else 0) := by
  intro ls
  induction ls with
  | nil => intro idx k l h; simp at h
  | cons l0 ls ih =>
    intro idx k l h
    cases k with
    | zero =>
      have hl : l0 = l := by simpa using h
      subst hl
      rw [specSecretScan, List.filter_append, List.length_append]
      have htail : ((specSecretScan m file (idx + 1) ls).filter
          fun i => decide (i.line = some (idx + 0 + 1))).length = 0 :=
        specSecretScan_filter_small m file ls (idx + 1) (idx + 0) (by omega)
      rw [htail]
      have hkeep : (decide ((secretIssue file (idx + 1)).line = some (idx + 0 + 1))) = true := by
        simp [secretIssue]
      split <;> simp [hkeep]
    | succ k' =>
      have htail : ls.get? k' = some l := by simpa using h
      rw [specSecretScan, List.filter_append, List.length_append]
      have hhead : ((if (gTest m l0 0).1 then [secretIssue file (idx + 1)] else []).filter
          fun i => decide (i.line = some (idx + (k' + 1) + 1))).length = 0 := by
        have hne : (decide ((secretIssue file (idx + 1)).line
            = some (idx + (k' + 1) + 1))) = false := by
          simp [secretIssue]
        split <;> simp [hne]
      rw [hhead]
      have harith : idx + (k' + 1) + 1 = (idx + 1) + k' + 1 := by omega
      rw [harith, ih (idx + 1) k' l htail, Nat.zero_add]

/-- C5: with `scanSecrets` on, each signature's state is reset between
lines, so the stateful scan equals the reference per-line scan (first
conjunct: a match on one line never causes a later line to be skipped),
and every line yields exactly one error Issue, carrying that line's
1-based number, per signature that matches it (second conjunct: a line
matched by k signatures yields k issues). -/
theorem secret_scan_reset_no_skip (patterns : List Matcher) (file : String)
    (lines : List (List Char)) :
    (∀ m : Matcher, secretScanLines m file 0 0 lines = specSecretScan m file 0 lines)
  ∧ ∀ (k : Nat) (l : List Char), lines.get? k = some l →
      ((secretScanPatterns file lines patterns).filter
          fun i => decide (i.line = some (k + 1))).length
        = patterns.countP fun m => (gTest m l 0).1 := by
  constructor
  · intro m
    exact secretScanLines_eq_spec m file 0 lines
  · intro k l h
    induction patterns with
    | nil => rfl
    | cons m ms ih =>
      rw [secretScanPatterns, List.filter_append, List.length_append, ih,
        secretScanLines_eq_spec]
      have hcnt := specSecretScan_filter_count m file lines 0 k l h
      simp only [Nat.zero_add] at hcnt
      rw [hcnt, List.countP_cons]
      split <;> omega

/-- C5 witness: one signature over a two-line file where both lines match:
line 2 is still reported (count 1 at line 2). -/
theorem secret_scan_reset_no_skip_witness :
    ((secretScanPatterns ("f.ts") [("ghp_x").data, ("ghp_y").data]
        [litMatcher ("ghp_")]).filter
      fun i => decide (i.line = some 2)).length = 1 := by
  have h := (secret_scan_reset_no_skip [litMatcher ("ghp_")] ("f.ts")
      [("ghp_x").data, ("ghp_y").data]).2 1 (("ghp_y").data) rfl
  exact h.trans (by decide)

/-!
C7 — the hallucinated-dependency heuristic.
-/

/-- The hallucinated-import loop over an arbitrary target list in
filter-map form. -/
theorem hallucinatedScan_eq (file : String) (l : List String) :
    hallucinatedScan file l
      = (l.filter fun pkg =>
          !startsWithStr pkg (".") && (twoCapsTest pkg && !(pkg.data.contains '/'))).map
        (hallucinatedIssue file) := by
  induction l with
  | nil => rfl
  | cons pkg rest ih =>
    rw [hallucinatedScan, List.filter_cons]
    cases h1 : startsWithStr pkg (".") <;>
      cases h2 : twoCapsTest pkg && !(pkg.data.contains '/') <;>
        simp [h1, h2, ih]

/-- C7: over the import targets extracted from a file's content, the
heuristic skips every relative target (leading dot) and flags, with one
warning Issue each, exactly the remaining targets that contain two
capitals in a line-terminator-free stretch (the regex of two capitalized
segments) and no path separator. -/
theorem hallucinated_import_characterization (file content : String) :
    hallucinatedScan file (extractImports content.data)
      = ((extractImports content.data).filter fun pkg =>
          !startsWithStr pkg (".") && (twoCapsTest pkg && !(pkg.data.contains '/'))).map
        (hallucinatedIssue file) :=
  hallucinatedScan_eq file (extractImports content.data)

/-!
C8 — per-file failure isolation.
-/

/-- The semantic analyzer ignores files whose read fails. -/
theorem analyzeSemantics_filter_readable (compile : String → Matcher) (fs : FS)
    (files : List String) (config : SemanticConfig) :
    analyzeSemantics compile fs files config
      = analyzeSemantics compile fs (files.filter fun f => (fs f).isSome) config := by
  induction files with
  | nil => rfl
  | cons file rest ih =>
    rw [analyzeSemantics, List.filter_cons]
    cases hf : fs file with
    | none => simp [hf, ih]
    | some content => simp [hf, analyzeSemantics, ih]

/-- The secrets loop ignores files whose read fails. -/
theorem secretScanFiles_filter_readable (patterns : List Matcher) (fs : FS)
    (files : List String) :
    secretScanFiles patterns fs files
      = secretScanFiles patterns fs (files.filter fun f => (fs f).isSome) := by
  induction files with
  | nil => rfl
  | cons file rest ih =>
    rw [secretScanFiles, List.filter_cons]
    cases hf : fs file with
    | none => simp [hf, ih]
    | some content => simp [hf, secretScanFiles, ih]

/-- The security scanner ignores files whose read fails. -/
theorem scanSecurity_filter_readable (patterns : List Matcher)
    (parse : String → Option (List String)) (fs : FS) (files : List String)
    (config : SecurityConfig) :
    scanSecurity patterns parse fs files config
      = scanSecurity patterns parse fs (files.filter fun f => (fs f).isSome) config := by
  unfold scanSecurity
  congr 1
  split
  · exact secretScanFiles_filter_readable patterns fs files
  · rfl

/-- The style checker ignores files whose read fails. -/
theorem checkStyle_filter_readable (fs : FS) (files : List String)
    (config : StyleConfig) :
    checkStyle fs files config
      = checkStyle fs (files.filter fun f => (fs f).isSome) config := by
  induction files with
  | nil => rfl
  | cons file rest ih =>
    rw [checkStyle, List.filter_cons]
    cases hf : fs file with
    | none =>
      cases hext : (endsWithStr file (".ts") || endsWithStr file (".tsx") ||
          endsWithStr file (".js")) <;>
        simp [hf, hext, ih]
    | some content =>
      cases hext : (endsWithStr file (".ts") || endsWithStr file (".tsx") ||
          endsWithStr file (".js")) <;>
        simp [hf, hext, checkStyle, ih]

/-- C8: a file whose read fails contributes no Issue in any of the three
analyzers and does not prevent the remaining files from being scanned
(each analyzer's output equals its output on the readable sublist), while
`analyzedFiles` still counts every requested file. -/
theorem read_failure_isolation (compile : String → Matcher)
    (patterns : List Matcher) (parse : String → Option (List String)) (fs : FS)
    (files : List String) (config : TriageConfig) (changedFiles : List String)
    (now : String) (shadow : Bool) :
    analyzeSemantics compile fs files config.semantic
        = analyzeSemantics compile fs (files.filter fun f => (fs f).isSome) config.semantic
  ∧ scanSecurity patterns parse fs files config.security
        = scanSecurity patterns parse fs (files.filter fun f => (fs f).isSome) config.security
  ∧ checkStyle fs files config.style
        = checkStyle fs (files.filter fun f => (fs f).isSome) config.style
  ∧ (triage compile patterns parse fs changedFiles now (some files) config
        shadow).analyzedFiles = files.length :=
  ⟨analyzeSemantics_filter_readable compile fs files config.semantic,
    scanSecurity_filter_readable patterns parse fs files config.security,
    checkStyle_filter_readable fs files config.style,
    rfl⟩

/-!
C9 — severity is determined by category.
-/

/-- Forbidden-pattern issues are semantic warnings. -/
theorem forbiddenScanLines_sev (m : Matcher) (file pat : String) :
    ∀ (li idx : Nat) (ls : List (List Char)), ∀ i ∈ forbiddenScanLines m file pat li idx ls,
      i.type = IssueType.semantic ∧ i.severity = Severity.warning := by
  intro li idx ls
  induction ls generalizing li idx with
  | nil => intro i h; simp [forbiddenScanLines] at h
  | cons l ls ih =>
    intro i h
    rw [forbiddenScanLines] at h
    rcases List.mem_append.1 h with h | h
    · split at h <;> simp_all [forbiddenIssue]
    · exact ih _ _ i h

/-- All forbidden-pattern issues are semantic warnings. -/
theorem forbiddenScanAll_sev (compile : String → Matcher) (file : String)
    (lines : List (List Char)) :
    ∀ (ps : List String), ∀ i ∈ forbiddenScanAll compile file lines ps,
      i.type = IssueType.semantic ∧ i.severity = Severity.warning := by
  intro ps
  induction ps with
  | nil => intro i h; simp [forbiddenScanAll] at h
  | cons pat ps ih =>
    intro i h
    rw [forbiddenScanAll] at h
    rcases List.mem_append.1 h with h | h
    · exact forbiddenScanLines_sev _ file pat 0 0 lines i h
    · exact ih i h

/-- Nesting issues are semantic warnings. -/
theorem nestingScan_sev (file : String) (maxComplexity : Int) :
    ∀ (level : Int) (idx : Nat) (ls : List (List Char)),
      ∀ i ∈ nestingScan file maxComplexity level idx ls,
        i.type = IssueType.semantic ∧ i.severity = Severity.warning := by
  intro level idx ls
  induction ls generalizing level idx with
  | nil => intro i h; simp [nestingScan] at h
  | cons l ls ih =>
    intro i h
    rw [nestingScan] at h
    rcases List.mem_append.1 h with h | h
    · split at h <;> simp_all [nestingIssue]
    · exact ih _ _ i h

/-- Hallucinated-import issues are semantic warnings. -/
theorem hallucinatedScan_sev (file : String) :
    ∀ (pkgs : List String), ∀ i ∈ hallucinatedScan file pkgs,
      i.type = IssueType.semantic ∧ i.severity = Severity.warning := by
  intro pkgs
  induction pkgs with
  | nil => intro i h; simp [hallucinatedScan] at h
  | cons pkg rest ih =>
    intro i h
    rw [hallucinatedScan] at h
    rcases List.mem_append.1 h with h | h
    · split at h
      · simp at h
      · split at h <;> simp_all [hallucinatedIssue]
    · exact ih i h

/-- Every issue of the semantic analyzer is a semantic warning. -/
theorem analyzeSemantics_sev (compile : String → Matcher) (fs : FS)
    (config : SemanticConfig) :
    ∀ (files : List String), ∀ i ∈ analyzeSemantics compile fs files config,
      i.type = IssueType.semantic ∧ i.severity = Severity.warning := by
  intro files
  induction files with
  | nil => intro i h; simp [analyzeSemantics] at h
  | cons file rest ih =>
    intro i h
    rw [analyzeSemantics] at h
    rcases List.mem_append.1 h with h | h
    · rcases hf : fs file with _ | content
      · rw [hf] at h; simp at h
      · rw [hf] at h
        simp only [analyzeSemanticsFile] at h
        rcases List.mem_append.1 h with h | h
        · rcases List.mem_append.1 h with h | h
          · exact forbiddenScanAll_sev compile file _ _ i h
          · exact nestingScan_sev file config.maxComplexity 0 0 _ i h
        · exact hallucinatedScan_sev file _ i h
    · exact ih i h

/-- Secret-scan issues are security errors. -/
theorem secretScanLines_sev (m : Matcher) (file : String) :
    ∀ (li idx : Nat) (ls : List (List Char)), ∀ i ∈ secretScanLines m file li idx ls,
      i.type = IssueType.security ∧ i.severity = Severity.error := by
  intro li idx ls
  induction ls generalizing li idx with
  | nil => intro i h; simp [secretScanLines] at h
  | cons l ls ih =>
    intro i h
    rw [secretScanLines] at h
    rcases List.mem_append.1 h with h | h
    · split at h <;> simp_all [secretIssue]
    · exact ih _ _ i h

/-- Per-file secret issues are security errors. -/
theorem secretScanPatterns_sev (file : String) (lines : List (List Char)) :
    ∀ (ms : List Matcher), ∀ i ∈ secretScanPatterns file lines ms,
      i.type = IssueType.security ∧ i.severity = Severity.error := by
  intro ms
  induction ms with
  | nil => intro i h; simp [secretScanPatterns] at h
  | cons m ms ih =>
    intro i h
    rw [secretScanPatterns] at h
    rcases List.mem_append.1 h with h | h
    · exact secretScanLines_sev m file 0 0 lines i h
    · exact ih i h

/-- Secrets-loop issues are security errors. -/
theorem secretScanFiles_sev (patterns : List Matcher) (fs : FS) :
    ∀ (files : List String), ∀ i ∈ secretScanFiles patterns fs files,
      i.type = IssueType.security ∧ i.severity = Severity.error := by
  intro files
  induction files with
  | nil => intro i h; simp [secretScanFiles] at h
  | cons file rest ih =>
    intro i h
    rw [secretScanFiles] at h
    rcases List.mem_append.1 h with h | h
    · rcases hf : fs file with _ | content
      · rw [hf] at h; simp at h
      · rw [hf] at h
        exact secretScanPatterns_sev file _ patterns i h
    · exact ih i h

/-- Dependency issues are security errors. -/
theorem depIssuesFor_sev (deps : List String) :
    ∀ (fps : List String), ∀ i ∈ depIssuesFor deps fps,
      i.type = IssueType.security ∧ i.severity = Severity.error := by
  intro fps
  induction fps with
  | nil => intro i h; simp [depIssuesFor] at h
  | cons f rest ih =>
    intro i h
    rw [depIssuesFor] at h
    rcases List.mem_append.1 h with h | h
    · split at h <;> simp_all [depIssue]
    · exact ih i h

/-- Every issue of the security scanner is a security error. -/
theorem scanSecurity_sev (patterns : List Matcher)
    (parse : String → Option (List String)) (fs : FS) (files : List String)
    (config : SecurityConfig) :
    ∀ i ∈ scanSecurity patterns parse fs files config,
      i.type = IssueType.security ∧ i.severity = Severity.error := by
  intro i h
  rw [scanSecurity] at h
  rcases List.mem_append.1 h with h | h
  · split at h
    · exact secretScanFiles_sev patterns fs files i h
    · simp at h
  · split at h
    · rw [depCheck] at h
      split at h
      · simp at h
      · split at h
        · simp at h
        · exact depIssuesFor_sev _ config.forbiddenPackages i h
    · simp at h

/-- Per-line style issues are style warnings. -/
theorem styleLineIssues_sev (file : String) (idx : Nat) (l : List Char) :
    ∀ i ∈ styleLineIssues file idx l,
      i.type = IssueType.style ∧ i.severity = Severity.warning := by
  intro i h
  rw [styleLineIssues] at h
  rcases List.mem_append.1 h with h | h
  · rcases List.mem_append.1 h with h | h
    · split at h <;> simp_all [lineLengthIssue]
    · split at h <;> simp_all [consoleIssue]
  · split at h <;> simp_all [varIssue]

/-- Style line-loop issues are style warnings. -/
theorem styleLinesScan_sev (file : String) :
    ∀ (idx : Nat) (ls : List (List Char)), ∀ i ∈ styleLinesScan file idx ls,
      i.type = IssueType.style ∧ i.severity = Severity.warning := by
  intro idx ls
  induction ls generalizing idx with
  | nil => intro i h; simp [styleLinesScan] at h
  | cons l ls ih =>
    intro i h
    rw [styleLinesScan] at h
    rcases List.mem_append.1 h with h | h
    · exact styleLineIssues_sev file idx l i h
    · exact ih _ i h

/-- Every issue of the style checker is a style warning. -/
theorem checkStyle_sev (fs : FS) (config : StyleConfig) :
    ∀ (files : List String), ∀ i ∈ checkStyle fs files config,
      i.type = IssueType.style ∧ i.severity = Severity.warning := by
  intro files
  induction files with
  | nil => intro i h; simp [checkStyle] at h
  | cons file rest ih =>
    intro i h
    rw [checkStyle] at h
    rcases List.mem_append.1 h with h | h
    · split at h
      · simp at h
      · rcases hf : fs file with _ | content
        · rw [hf] at h; simp at h
        · rw [hf] at h
          exact styleLinesScan_sev file 0 _ i h
    · exact ih i h

/-- C9: under the built-in analyzers, semantic and style issues are always
warnings, security issues are always errors (so no analyzer ever emits an
info issue), and a triage run over their concatenated output FAILs exactly
when the security scanner reported at least one issue. -/
theorem analyzer_severity_by_category (compile : String → Matcher)
    (patterns : List Matcher) (parse : String → Option (List String)) (fs : FS)
    (files : List String) (config : TriageConfig) :
    (∀ i ∈ analyzeSemantics compile fs files config.semantic,
        i.type = IssueType.semantic ∧ i.severity = Severity.warning)
  ∧ (∀ i ∈ checkStyle fs files config.style,
        i.type = IssueType.style ∧ i.severity = Severity.warning)
  ∧ (∀ i ∈ scanSecurity patterns parse fs files config.security,
        i.type = IssueType.security ∧ i.severity = Severity.error)
  ∧ (verdictOf (analyzeSemantics compile fs files config.semantic
        ++ scanSecurity patterns parse fs files config.security
        ++ checkStyle fs files config.style) = Verdict.FAIL
      ↔ scanSecurity patterns parse fs files config.security ≠ []) := by
  refine ⟨analyzeSemantics_sev compile fs config.semantic files,
    checkStyle_sev fs config.style files,
    scanSecurity_sev patterns parse fs files config.security, ?_⟩
  have hchar := (verdict_severity_characterization
    (analyzeSemantics compile fs files config.semantic
      ++ scanSecurity patterns parse fs files config.security
      ++ checkStyle fs files config.style)).1
  rw [hchar]
  constructor
  · rintro ⟨i, hi, hs⟩ hempty
    rcases List.mem_append.1 hi with hi | hi
    · rcases List.mem_append.1 hi with hi | hi
      · have := (analyzeSemantics_sev compile fs config.semantic files i hi).2
        rw [this] at hs
        exact Severity.noConfusion hs
      · rw [hempty] at hi
        simp at hi
    · have := (checkStyle_sev fs config.style files i hi).2
      rw [this] at hs
      exact Severity.noConfusion hs
  · intro hne
    rcases List.exists_mem_of_ne_nil _ hne with ⟨i, hi⟩
    refine ⟨i, ?_, (scanSecurity_sev patterns parse fs files config.security i hi).2⟩
    exact List.mem_append.2 (Or.inl (List.mem_append.2 (Or.inr hi)))

/-- C9 witness: the one concrete semantic issue of a one-file fixture is a
semantic warning. -/
theorem analyzer_severity_by_category_witness :
    (forbiddenIssue ("w.ts") (": any") 1).type = IssueType.semantic
      ∧ (forbiddenIssue ("w.ts") (": any") 1).severity = Severity.warning :=
  (analyzer_severity_by_category litMatcher [] (fun _ => none) fsW [("w.ts")] cfgW).1
    (forbiddenIssue ("w.ts") (": any") 1) (by decide)

end Triage
